import Mathlib

set_option maxRecDepth 1000000
set_option maxHeartbeats 2000000

/-!
Verification of the iso9660 ISO-image reading library (Unpackerr/iso9660).

The repository snapshot carries the library's tests (`multi_extent_test.go`)
and the `isodump` command-line collaborator (`cmd/isodump/main.go`); the
library body itself (volume-descriptor reader, directory-entry codec,
directory tree builder with multi-extent merge, extent-spanning reader and
the Image/File facade) is not present, so those components are modelled
from the specification's sections 3, 4 and 6, pinned where the tests are
more precise (field names, the `extents`-nil convention for single-extent
files, and the exclusion of the self/parent records from `GetChildren`
results, which the tests require).

Bytes are `Nat` values; machine-width truncation is written explicitly as
`% 256` (or composed little-endian reconstruction) where the Go byte and
integer types force it.
-/

namespace Iso9660

/-- Logical sector size in bytes, fixed at 2048 by the format. -/
def sectorSize : Nat := 2048

/-- Volume descriptor type byte of the Primary Volume Descriptor. -/
def volumeTypePrimary : Nat := 1

/-- Volume descriptor type byte of the Set Terminator. -/
def volumeTypeTerminator : Nat := 255

/-- File-flags bit marking a directory record. -/
def dirFlagDir : Nat := 2

/-- File-flags bit marking a non-final (multi-extent continuation) record. -/
def dirFlagMultiExtent : Nat := 128

/-- The `"CD001"` standard identifier bytes every volume descriptor carries. -/
def magicBytes : List Nat := [67, 68, 48, 48, 49]

/-- Byte list of an ASCII string, used to write identifiers concretely. -/
def strBytes (s : String) : List Nat := s.data.map Char.toNat

/-- Modelled from the spec: error taxonomy of the missing library source
(section 7 of the spec). -/
inductive Err where
  | invalidMagic
  | noPrimaryDescriptor
  | truncatedRecord
  | decodeError
  | notADirectory
  | ioFailure
  deriving DecidableEq, Repr

/-- Modelled from the spec: a contiguous run of sectors holding part of a
file's data (spec section 3, `Extent`), a start sector plus a byte length. -/
structure Extent where
  location : Nat
  length : Nat
  deriving DecidableEq, Repr

/-- Modelled from the spec: the raw 7-byte recording timestamp of a
directory record (spec section 4.2; the library type `RecordingTimestamp`
is not in the snapshot). Each field holds one raw byte. -/
structure RecordingTimestamp where
  years : Nat
  months : Nat
  days : Nat
  hours : Nat
  minutes : Nat
  seconds : Nat
  gmtOffset : Nat
  deriving DecidableEq, Repr

instance : Inhabited RecordingTimestamp := ⟨⟨0, 0, 0, 0, 0, 0, 0⟩⟩

/-- Modelled from the spec: one decoded on-disk directory record (spec
section 4.2's `RawDirectoryEntry`; field names follow the repository's test
file, which constructs `DirectoryEntry` literals). `Identifier` and
`SystemUse` are raw byte lists. -/
structure DirectoryEntry where
  ExtendedAttrLength : Nat := 0
  ExtentLocation : Nat
  ExtentLength : Nat
  RecordingDateTime : RecordingTimestamp := default
  FileFlags : Nat
  FileUnitSize : Nat := 0
  InterleaveGap : Nat := 0
  VolumeSequenceNumber : Nat
  Identifier : List Nat
  SystemUse : List Nat
  deriving DecidableEq, Repr

/-- Little-endian 4-byte encoding of an unsigned 32-bit value. -/
def le32 (n : Nat) : List Nat :=
  [n % 256, n / 256 % 256, n / 65536 % 256, n / 16777216 % 256]

/-- Big-endian 4-byte encoding of an unsigned 32-bit value. -/
def be32 (n : Nat) : List Nat := (le32 n).reverse

/-- Little-endian 2-byte encoding of an unsigned 16-bit value. -/
def le16 (n : Nat) : List Nat := [n % 256, n / 256 % 256]

/-- Big-endian 2-byte encoding of an unsigned 16-bit value. -/
def be16 (n : Nat) : List Nat := (le16 n).reverse

/-- Dual-endian ("both byte orders") 32-bit field, LSB half then MSB half,
as written by the test helper `WriteInt32LSBMSB`. -/
def writeInt32LSBMSB (n : Nat) : List Nat := le32 n ++ be32 n

/-- Dual-endian 16-bit field, as written by the test helper
`WriteInt16LSBMSB`. -/
def writeInt16LSBMSB (n : Nat) : List Nat := le16 n ++ be16 n

/-- Marshalled 7 bytes of a recording timestamp (spec section 4.2, offsets
18-24 of a record). -/
def RecordingTimestamp.marshal (t : RecordingTimestamp) : List Nat :=
  [t.years % 256, t.months % 256, t.days % 256, t.hours % 256,
   t.minutes % 256, t.seconds % 256, t.gmtOffset % 256]

/-- Number of pad bytes after an identifier of the given length: one byte
when the length is even, keeping the record even-length (spec section 4.2).
Written structurally (it equals `(n + 1) % 2`). -/
def padFor : Nat → Nat
  | 0 => 1
  | 1 => 0
  | n + 2 => padFor n

/-- Modelled from the spec: `DirectoryEntry.MarshalBinary` of the missing
library source, laid out per the byte table of spec section 4.2: record
length, extended-attribute length, dual-endian extent location and length,
7-byte timestamp, flags, file unit size, interleave gap, dual-endian volume
sequence number, identifier length, identifier bytes, one pad byte when the
identifier length is even, then system-use bytes. -/
def DirectoryEntry.marshalBinary (de : DirectoryEntry) : List Nat :=
  let idLen := de.Identifier.length
  let pad := padFor idLen
  let totalLen := 33 + idLen + pad + de.SystemUse.length
  [totalLen % 256, de.ExtendedAttrLength % 256]
    ++ writeInt32LSBMSB de.ExtentLocation
    ++ writeInt32LSBMSB de.ExtentLength
    ++ de.RecordingDateTime.marshal
    ++ [de.FileFlags % 256, de.FileUnitSize % 256, de.InterleaveGap % 256]
    ++ writeInt16LSBMSB de.VolumeSequenceNumber
    ++ [idLen % 256]
    ++ de.Identifier.map (· % 256)
    ++ List.replicate pad 0
    ++ de.SystemUse.map (· % 256)

/-- Modelled from the spec: decoding one directory record from a byte
window (spec section 4.2). `at_` reads the window's bytes (byte 0 is the
declared record length), `avail` is the number of bytes available. Dual-
endian fields are decoded from their little-endian half. Fails with
`truncatedRecord` when fewer bytes are available than the record declares,
and with `decodeError` when the declared length cannot even hold the fixed
part plus the identifier. A zero declared length is the caller's sector-
padding sentinel and is never passed here. -/
def decodeEntryAt (at_ : Nat → Nat) (avail : Nat) : Except Err DirectoryEntry :=
  let recLen := at_ 0
  if avail < recLen then .error .truncatedRecord
  else
    let idLen := at_ 32
    let pad := padFor idLen
    if recLen < 33 + idLen + pad then .error .decodeError
    else .ok
      { ExtendedAttrLength := at_ 1
        ExtentLocation := at_ 2 + 256 * at_ 3 + 65536 * at_ 4 + 16777216 * at_ 5
        ExtentLength := at_ 10 + 256 * at_ 11 + 65536 * at_ 12 + 16777216 * at_ 13
        RecordingDateTime :=
          ⟨at_ 18, at_ 19, at_ 20, at_ 21, at_ 22, at_ 23, at_ 24⟩
        FileFlags := at_ 25
        FileUnitSize := at_ 26
        InterleaveGap := at_ 27
        VolumeSequenceNumber := at_ 28 + 256 * at_ 29
        Identifier := (List.range idLen).map (fun i => at_ (33 + i))
        SystemUse :=
          (List.range (recLen - (33 + idLen + pad))).map
            (fun i => at_ (33 + idLen + pad + i)) }

/-- Decoding a directory record from a plain byte list (window = the whole
list), used to state the codec round-trip. -/
def unmarshalBinary (bs : List Nat) : Except Err DirectoryEntry :=
  decodeEntryAt (fun i => bs.getD i 0) bs.length

/-- Modelled from the spec: the Sector Source (spec section 2, component 1)
as a random-access byte provider with a known total size; `byteAt` returns
the byte at an absolute offset from the start of the image. -/
structure ByteImage where
  size : Nat
  byteAt : Nat → Nat

/-- Modelled from the spec: record scanning within one sector of a
directory extent (spec sections 4.2-4.3): records are decoded at increasing
offsets `off` within the sector's `window` bytes starting at absolute
offset `base`; a declared record length of `0` is the sector-padding
sentinel, terminating the scan within this sector; the scan also stops at
the window's end. `fuel` only bounds the recursion; call sites pass at
least `window + 1`, which suffices since `off` strictly grows each step. -/
def scanSector (img : ByteImage) (base window : Nat) :
    Nat → Nat → Except Err (List DirectoryEntry)
  | 0, _ => .ok []
  | fuel + 1, off =>
    if window ≤ off then .ok []
    else
      let recLen := img.byteAt (base + off)
      if recLen = 0 then .ok []
      else
        match decodeEntryAt (fun i => img.byteAt (base + off + i)) (window - off) with
        | .error e => .error e
        | .ok de =>
          match scanSector img base window fuel (off + recLen) with
          | .error e => .error e
          | .ok des => .ok (de :: des)

/-- Modelled from the spec: record scanning over a whole directory extent
(spec section 4.3): every sector covered by the extent is scanned in order;
after a sector's records end (at the sector's end or at a zero-length
sentinel) scanning resumes at the next sector boundary, until the extent's
`len` bytes are exhausted. The first argument is recursion fuel (at least
the sector count; call sites pass `len`). -/
def scanDir (img : ByteImage) : Nat → Nat → Nat → Except Err (List DirectoryEntry)
  | 0, _, _ => .ok []
  | n + 1, base, len =>
    if len = 0 then .ok []
    else
      let window := min sectorSize len
      match scanSector img base window (window + 1) 0 with
      | .error e => .error e
      | .ok des =>
        match scanDir img n (base + sectorSize) (len - window) with
        | .error e => .error e
        | .ok more => .ok (des ++ more)

/-- Modelled from the spec: the caller-facing logical `File` of the missing
library source (spec section 3). `extents` is `none` for a file backed by a
single directory record (the tests assert `f.extents` is nil then) and
`some` of the merged ordered extent list for a multi-extent file;
`children` is the materialized child list a directory owns once
`GetChildren` has run (spec section 3's ownership note). -/
inductive File where
  | mk (de : DirectoryEntry) (extents : Option (List Extent))
      (children : Option (List File)) : File

/-- The directory record a `File` was built from (the first record of a
multi-extent chain). -/
def File.de : File → DirectoryEntry
  | .mk d _ _ => d

/-- The merged extent list of a multi-extent `File`, `none` when the file
is backed by a single record. -/
def File.extents : File → Option (List Extent)
  | .mk _ e _ => e

/-- The materialized children of a directory `File`, `none` before
`GetChildren` has run. -/
def File.children : File → Option (List File)
  | .mk _ _ c => c

/-- Structural halving (equals `n / 2`); written without `Nat.div` so that
flag tests reduce definitionally. -/
def div2 : Nat → Nat
  | 0 => 0
  | 1 => 0
  | n + 2 => div2 n + 1

/-- Structural parity (equals `n % 2 = 1`). -/
def oddNat : Nat → Bool
  | 0 => false
  | 1 => true
  | n + 2 => oddNat n

/-- Whether the record's file flags carry the directory bit (bit value 2,
that is `FileFlags &&& dirFlagDir ≠ 0`; see `isDirRec_eq_land`). -/
def DirectoryEntry.isDirRec (de : DirectoryEntry) : Bool :=
  oddNat (div2 de.FileFlags)

/-- Whether the record's file flags carry the "not final" multi-extent
continuation bit (spec section 4.2, bit value 0x80, that is
`FileFlags &&& dirFlagMultiExtent ≠ 0`; see `notFinal_eq_land`). -/
def DirectoryEntry.notFinal (de : DirectoryEntry) : Bool :=
  oddNat (div2 (div2 (div2 (div2 (div2 (div2 (div2 de.FileFlags)))))))

/-- The single extent described by one directory record. -/
def DirectoryEntry.extent (de : DirectoryEntry) : Extent :=
  ⟨de.ExtentLocation, de.ExtentLength⟩

/-- `IsDir` facade accessor: the directory bit of the underlying record. -/
def File.isDir (f : File) : Bool := f.de.isDirRec

/-- The file's full extent list: the merged list when one was recorded,
otherwise the single extent of its sole record. -/
def File.extentsList (f : File) : List Extent :=
  match f.extents with
  | none => [f.de.extent]
  | some es => es

/-- `Size` facade accessor: the single record's extent length, or the sum
of the merged extents' lengths for a multi-extent file. -/
def File.size (f : File) : Nat :=
  match f.extents with
  | none => f.de.ExtentLength
  | some es => (es.map Extent.length).sum

/-- `HasMultiExtent` facade accessor: whether the extent list has more
than one element (spec section 4.5). -/
def File.hasMultiExtent (f : File) : Bool :=
  f.extentsList.length > 1

/-- Strip a trailing `;<digits>` version suffix (at least one digit) from a
raw identifier, per spec section 4.2's normalization; `;` is byte 59 and
digits are bytes 48-57. -/
def stripVersion (id : List Nat) : List Nat :=
  let rid := id.reverse
  let digits := rid.takeWhile (fun b => decide (48 ≤ b ∧ b ≤ 57))
  if digits.isEmpty then id
  else
    match rid.drop digits.length with
    | 59 :: rest => rest.reverse
    | _ => id

/-- Byte list rendered as a string, one character per byte. -/
def stringOfBytes (bs : List Nat) : String :=
  String.mk (bs.map Char.ofNat)

/-- `Name` facade accessor: the raw byte for the self (`0x00`) and parent
(`0x01`) markers, otherwise the identifier with its version suffix
stripped (spec section 4.2). -/
def File.name (f : File) : String :=
  if f.de.Identifier = [0] then "\x00"
  else if f.de.Identifier = [1] then "\x01"
  else stringOfBytes (stripVersion f.de.Identifier)

/-- Modelled from the spec: the open accumulator of the multi-extent merge
scan (spec section 4.3): the chain's first record, the extents collected so
far in encounter order, and whether the previously appended record carried
the "not final" flag. -/
structure MergeAcc where
  first : DirectoryEntry
  exts : List Extent
  prevNotFinal : Bool

/-- Seal an accumulator into a completed `File` (spec section 4.3): a chain
of one record yields a single-extent file with no merged extent list (the
tests assert `extents` is nil then); a longer chain records the collected
extents in order. -/
def sealAcc (a : MergeAcc) : File :=
  if a.exts.length ≤ 1 then .mk a.first none none
  else .mk a.first (some a.exts) none

/-- Modelled from the spec: the multi-extent merge scan (spec section 4.3).
Records are processed in strict physical order; a record whose raw
identifier matches the open accumulator's while the previous record carried
the "not final" flag appends its extent; otherwise the accumulator is
sealed and a new one starts with the current record; the last accumulator
is sealed at end of input. -/
def mergeLoop : Option MergeAcc → List DirectoryEntry → List File
  | none, [] => []
  | some a, [] => [sealAcc a]
  | none, de :: rest => mergeLoop (some ⟨de, [de.extent], de.notFinal⟩) rest
  | some a, de :: rest =>
    if de.Identifier = a.first.Identifier ∧ a.prevNotFinal then
      mergeLoop (some ⟨a.first, a.exts ++ [de.extent], de.notFinal⟩) rest
    else
      sealAcc a :: mergeLoop (some ⟨de, [de.extent], de.notFinal⟩) rest

/-- The Directory Tree Builder's merge stage over an already-decoded record
sequence. -/
def mergeRecords (des : List DirectoryEntry) : List File :=
  mergeLoop none des

/-- Modelled from the spec and pinned by the tests: `File.GetChildren` of
the missing library source. Fails with `notADirectory` on a non-directory,
reads the directory's sole extent (spec section 3: a directory's listing is
never chained), fails with `ioFailure` when the extent lies beyond the
image, scans its records and merges multi-extent chains. The self (`0x00`)
and parent (`0x01`) records are dropped from the result, which the
repository's tests require (`TestMultiExtentFile` expects exactly one child
of a root that also holds the two pseudo-entries). -/
def getChildren (img : ByteImage) (f : File) : Except Err (List File) :=
  if ¬ f.isDir then .error .notADirectory
  else
    let base := sectorSize * f.de.ExtentLocation
    let len := f.de.ExtentLength
    if img.size < base + len then .error .ioFailure
    else
      match scanDir img len base len with
      | .error e => .error e
      | .ok des =>
        .ok (mergeRecords
          (des.filter (fun de => decide (de.Identifier ≠ [0] ∧ de.Identifier ≠ [1]))))

/-- Modelled from the spec: `GetChildren` with the materialization step of
spec section 3 ("a directory File owns the list of its immediate children
once GetChildren materializes them"): an already-materialized list is
returned as is, otherwise the children are computed and recorded on the
returned `File`. -/
def getChildrenCached (img : ByteImage) (f : File) :
    Except Err (List File × File) :=
  match f.children with
  | some cs => .ok (cs, f)
  | none =>
    match getChildren img f with
    | .error e => .error e
    | .ok cs => .ok (cs, .mk f.de f.extents (some cs))

/-- The bytes of one extent, read from the image. -/
def readExtent (img : ByteImage) (e : Extent) : List Nat :=
  (List.range e.length).map (fun i => img.byteAt (sectorSize * e.location + i))

/-- Modelled from the spec: the Extent-Spanning Reader (spec section 4.4),
represented by its total yield: the concatenation of the file's extents'
bytes in extent-list order, of length `sum(extent.length)`. -/
def File.readAll (img : ByteImage) (f : File) : List Nat :=
  (f.extentsList.map (readExtent img)).flatten

/-- Modelled from the spec: the decoded Primary Volume Descriptor (spec
sections 3 and 4.1). -/
structure PrimaryVD where
  volumeIdentifier : List Nat
  volumeSpaceSize : Nat
  volumeSetSize : Nat
  volumeSequenceNumber : Nat
  logicalBlockSize : Nat
  rootRecord : DirectoryEntry
  fileStructureVersion : Nat
  deriving DecidableEq, Repr

/-- Modelled from the spec: decoding the Primary Volume Descriptor's fields
from its sector (spec section 4.1's offsets: volume identifier at 40,
volume space size at 80, set size and sequence number at 120 and 124,
logical block size at 128, the 34-byte embedded root directory record at
156, file structure version at 881). -/
def decodePrimary (img : ByteImage) (sector : Nat) : Except Err PrimaryVD :=
  let at_ := fun i => img.byteAt (sector * sectorSize + i)
  match decodeEntryAt (fun i => at_ (156 + i)) 34 with
  | .error e => .error e
  | .ok root => .ok
    { volumeIdentifier := (List.range 32).map (fun i => at_ (40 + i))
      volumeSpaceSize := at_ 80 + 256 * at_ 81 + 65536 * at_ 82 + 16777216 * at_ 83
      volumeSetSize := at_ 120 + 256 * at_ 121
      volumeSequenceNumber := at_ 124 + 256 * at_ 125
      logicalBlockSize := at_ 128 + 256 * at_ 129
      rootRecord := root
      fileStructureVersion := at_ 881 }

/-- Type byte of the volume descriptor at the given sector (byte 0 of its
7-byte header). -/
def descType (img : ByteImage) (sector : Nat) : Nat :=
  img.byteAt (sector * sectorSize)

/-- Standard-identifier bytes of the volume descriptor at the given sector
(bytes 1-5 of its header, `"CD001"` on a well-formed image). -/
def descMagic (img : ByteImage) (sector : Nat) : List Nat :=
  (List.range 5).map (fun i => img.byteAt (sector * sectorSize + 1 + i))

/-- Modelled from the spec: the Volume Descriptor Reader's scan (spec
section 4.1): from sector 16 upward, each descriptor's 7-byte header is
decoded; a standard identifier other than `"CD001"` fails with
`invalidMagic`; the first type-1 descriptor is accumulated as the Primary
of record; a type-255 terminator stops the scan, failing with
`noPrimaryDescriptor` when no Primary was seen. Reading past the image's
end fails with `ioFailure`. `fuel` bounds the recursion; the call site
passes the image's byte size, an upper bound on its sector count. -/
def scanVD (img : ByteImage) : Nat → Nat → Option PrimaryVD → Except Err PrimaryVD
  | 0, _, _ => .error .ioFailure
  | fuel + 1, sector, found =>
    if img.size < (sector + 1) * sectorSize then .error .ioFailure
    else
      let ty := descType img sector
      let magic := descMagic img sector
      if magic ≠ magicBytes then .error .invalidMagic
      else if ty = volumeTypeTerminator then
        match found with
        | some p => .ok p
        | none => .error .noPrimaryDescriptor
      else if ty = volumeTypePrimary then
        match found with
        | some p => scanVD img fuel (sector + 1) (some p)
        | none =>
          match decodePrimary img sector with
          | .error e => .error e
          | .ok p => scanVD img fuel (sector + 1) (some p)
      else scanVD img fuel (sector + 1) found

/-- Modelled from the spec: the process-scoped `Image` handle (spec
section 3): the sector source plus the parsed Primary Volume Descriptor. -/
structure Image where
  source : ByteImage
  pvd : PrimaryVD

/-- Modelled from the spec: `OpenImage` (spec section 4.5): validate and
scan the descriptor chain per section 4.1, starting at sector 16, and wrap
the source with the Primary descriptor of record. -/
def OpenImage (img : ByteImage) : Except Err Image :=
  match scanVD img img.size 16 none with
  | .error e => .error e
  | .ok p => .ok ⟨img, p⟩

/-- Modelled from the spec: `Image.RootDir` (spec section 4.5): the root
`File` built from the Primary descriptor's embedded root record, children
not yet read. -/
def Image.rootDir (im : Image) : File :=
  .mk im.pvd.rootRecord none none

/-! ### Concrete test images, mirroring the test helper `buildTestISO` -/

/-- Space-padded fixed-width string marshalling, as the test's
`MarshalString` writes the volume identifier. -/
def marshalString (s : String) (n : Nat) : List Nat :=
  (strBytes s ++ List.replicate n 32).take n

/-- The root directory record `buildTestISO` embeds in the Primary Volume
Descriptor: root listing at sector 18, one sector long. -/
def rootDirRecord : DirectoryEntry :=
  { ExtentLocation := 18, ExtentLength := sectorSize, FileFlags := dirFlagDir
    VolumeSequenceNumber := 1, Identifier := [0], SystemUse := [] }

/-- Byte `i` of the Primary Volume Descriptor sector `buildTestISO` builds:
type 1, `"CD001"`, version 1, volume identifier `"TESTISO"`, dual-endian
volume space size, set size 1, sequence number 1, block size 2048, the
embedded root record at 156 and file structure version 1 at 881. -/
def pvdByte (totalSectors : Nat) (rootRec : DirectoryEntry) (i : Nat) : Nat :=
  if i = 0 then volumeTypePrimary
  else if 1 ≤ i ∧ i ≤ 5 then magicBytes.getD (i - 1) 0
  else if i = 6 then 1
  else if 40 ≤ i ∧ i < 72 then (marshalString "TESTISO" 32).getD (i - 40) 0
  else if 80 ≤ i ∧ i < 88 then (writeInt32LSBMSB totalSectors).getD (i - 80) 0
  else if 120 ≤ i ∧ i < 124 then (writeInt16LSBMSB 1).getD (i - 120) 0
  else if 124 ≤ i ∧ i < 128 then (writeInt16LSBMSB 1).getD (i - 124) 0
  else if 128 ≤ i ∧ i < 132 then (writeInt16LSBMSB sectorSize).getD (i - 128) 0
  else if 156 ≤ i ∧ i < 190 then rootRec.marshalBinary.getD (i - 156) 0
  else if i = 881 then 1
  else 0

/-- Byte `i` of the Set Terminator descriptor sector `buildTestISO`
builds: type 255, `"CD001"`, version 1. -/
def termByte (i : Nat) : Nat :=
  if i = 0 then volumeTypeTerminator
  else if 1 ≤ i ∧ i ≤ 5 then magicBytes.getD (i - 1) 0
  else if i = 6 then 1
  else 0

/-- The self record every test directory starts with. -/
def dotEntry : DirectoryEntry :=
  { ExtentLocation := 18, ExtentLength := sectorSize, FileFlags := dirFlagDir
    VolumeSequenceNumber := 1, Identifier := [0], SystemUse := [] }

/-- The parent record every test directory carries second. -/
def dotDotEntry : DirectoryEntry :=
  { ExtentLocation := 18, ExtentLength := sectorSize, FileFlags := dirFlagDir
    VolumeSequenceNumber := 1, Identifier := [1], SystemUse := [] }

/-- First `BIGFILE.BIN;1` chain record of `TestMultiExtentFile`: sector 19,
100 bytes, "not final". -/
def me1 : DirectoryEntry :=
  { ExtentLocation := 19, ExtentLength := 100, FileFlags := dirFlagMultiExtent
    VolumeSequenceNumber := 1, Identifier := strBytes "BIGFILE.BIN;1", SystemUse := [] }

/-- Second `BIGFILE.BIN;1` chain record: sector 20, 100 bytes, "not
final". -/
def me2 : DirectoryEntry :=
  { ExtentLocation := 20, ExtentLength := 100, FileFlags := dirFlagMultiExtent
    VolumeSequenceNumber := 1, Identifier := strBytes "BIGFILE.BIN;1", SystemUse := [] }

/-- Final `BIGFILE.BIN;1` chain record: sector 21, 50 bytes, no flags. -/
def me3 : DirectoryEntry :=
  { ExtentLocation := 21, ExtentLength := 50, FileFlags := 0
    VolumeSequenceNumber := 1, Identifier := strBytes "BIGFILE.BIN;1", SystemUse := [] }

/-- The root listing sector of `TestMultiExtentFile`: the five records
marshalled back to back. -/
def dirBytesC1 : List Nat :=
  dotEntry.marshalBinary ++ dotDotEntry.marshalBinary
    ++ me1.marshalBinary ++ me2.marshalBinary ++ me3.marshalBinary

/-- The `TestMultiExtentFile` image, parametrized by the three extents'
contents `a` (100 bytes at sector 19), `b` (100 bytes at sector 20) and `c`
(50 bytes at sector 21); 23 sectors as `buildTestISO` sizes it. -/
def imgC1 (a b c : Nat → Nat) : ByteImage where
  size := 23 * sectorSize
  byteAt := fun i =>
    if i < 16 * sectorSize then 0
    else if i < 17 * sectorSize then pvdByte 23 rootDirRecord (i - 16 * sectorSize)
    else if i < 18 * sectorSize then termByte (i - 17 * sectorSize)
    else if i < 19 * sectorSize then dirBytesC1.getD (i - 18 * sectorSize) 0
    else if i < 19 * sectorSize + 100 then a (i - 19 * sectorSize)
    else if i < 20 * sectorSize then 0
    else if i < 20 * sectorSize + 100 then b (i - 20 * sectorSize)
    else if i < 21 * sectorSize then 0
    else if i < 21 * sectorSize + 50 then c (i - 21 * sectorSize)
    else 0

/-- The `TestMultiExtentFile` image with the spec's example contents:
100 bytes `'A'`, 100 bytes `'B'`, 50 bytes `'C'`. -/
def imgC1c : ByteImage := imgC1 (fun _ => 65) (fun _ => 66) (fun _ => 67)

/-- The Primary Volume Descriptor decoded from the test images: 23
sectors, identifier `"TESTISO"`, block size 2048, root listing at sector
18. -/
def pvdC1 : PrimaryVD :=
  { volumeIdentifier := marshalString "TESTISO" 32
    volumeSpaceSize := 23, volumeSetSize := 1, volumeSequenceNumber := 1
    logicalBlockSize := 2048, rootRecord := rootDirRecord, fileStructureVersion := 1 }

/-- The single merged `File` the root listing of `TestMultiExtentFile`
yields. -/
def bigfileC1 : File := .mk me1 (some [⟨19, 100⟩, ⟨20, 100⟩, ⟨21, 50⟩]) none


/-- The normal single-extent record of `TestMultiExtentMixedWithRegularFiles`:
sector 19, 30 bytes. -/
def normalFile : DirectoryEntry :=
  { ExtentLocation := 19, ExtentLength := 30, FileFlags := 0
    VolumeSequenceNumber := 1, Identifier := strBytes "NORMAL.TXT;1", SystemUse := [] }

/-- First `MULTI.BIN;1` chain record: sector 22, 80 bytes, "not final". -/
def multiPart1 : DirectoryEntry :=
  { ExtentLocation := 22, ExtentLength := 80, FileFlags := dirFlagMultiExtent
    VolumeSequenceNumber := 1, Identifier := strBytes "MULTI.BIN;1", SystemUse := [] }

/-- Final `MULTI.BIN;1` chain record: sector 23, 40 bytes. -/
def multiPart2 : DirectoryEntry :=
  { ExtentLocation := 23, ExtentLength := 40, FileFlags := 0
    VolumeSequenceNumber := 1, Identifier := strBytes "MULTI.BIN;1", SystemUse := [] }

/-- The root listing sector of `TestMultiExtentMixedWithRegularFiles`. -/
def dirBytesC5 : List Nat :=
  dotEntry.marshalBinary ++ dotDotEntry.marshalBinary
    ++ normalFile.marshalBinary ++ multiPart1.marshalBinary ++ multiPart2.marshalBinary

/-- The 30 content bytes of `NORMAL.TXT;1` in the mixed-listing test. -/
def normalData : List Nat := strBytes "This is a normal file content."

/-- The `TestMultiExtentMixedWithRegularFiles` image: the normal file's
bytes at sector 19, 80 bytes `'X'` at sector 22, 40 bytes `'Y'` at sector
23; 25 sectors as `buildTestISO` sizes it. -/
def imgC5 : ByteImage where
  size := 25 * sectorSize
  byteAt := fun i =>
    if i < 16 * sectorSize then 0
    else if i < 17 * sectorSize then pvdByte 25 rootDirRecord (i - 16 * sectorSize)
    else if i < 18 * sectorSize then termByte (i - 17 * sectorSize)
    else if i < 19 * sectorSize then dirBytesC5.getD (i - 18 * sectorSize) 0
    else if i < 19 * sectorSize + 30 then normalData.getD (i - 19 * sectorSize) 0
    else if i < 22 * sectorSize then 0
    else if i < 22 * sectorSize + 80 then 88
    else if i < 23 * sectorSize then 0
    else if i < 23 * sectorSize + 40 then 89
    else 0

/-- The Primary Volume Descriptor of the mixed-listing image (25 sectors). -/
def pvdC5 : PrimaryVD :=
  { volumeIdentifier := marshalString "TESTISO" 32
    volumeSpaceSize := 25, volumeSetSize := 1, volumeSequenceNumber := 1
    logicalBlockSize := 2048, rootRecord := rootDirRecord, fileStructureVersion := 1 }

/-- Root directory record of the sentinel-boundary image: root listing
spans two sectors (18 and 19, 4096 bytes). -/
def rootDirRecordC6 : DirectoryEntry :=
  { ExtentLocation := 18, ExtentLength := 2 * sectorSize, FileFlags := dirFlagDir
    VolumeSequenceNumber := 1, Identifier := [0], SystemUse := [] }

/-- A plain file record in sector 18 of the sentinel-boundary image. -/
def fileARec : DirectoryEntry :=
  { ExtentLocation := 20, ExtentLength := 5, FileFlags := 0
    VolumeSequenceNumber := 1, Identifier := strBytes "FILEA.TXT;1", SystemUse := [] }

/-- A plain file record in sector 19 of the sentinel-boundary image. -/
def fileBRec : DirectoryEntry :=
  { ExtentLocation := 21, ExtentLength := 6, FileFlags := 0
    VolumeSequenceNumber := 1, Identifier := strBytes "FILEB.TXT;1", SystemUse := [] }

/-- First root-listing sector of the sentinel-boundary image: three
records, then a zero-length sentinel, then junk bytes that scanning must
never read as records. -/
def dirBytesC6a : List Nat :=
  dotEntry.marshalBinary ++ dotDotEntry.marshalBinary ++ fileARec.marshalBinary
    ++ [0] ++ List.replicate 10 77

/-- Second root-listing sector of the sentinel-boundary image: one more
record after the sector boundary. -/
def dirBytesC6b : List Nat := fileBRec.marshalBinary

/-- The sentinel-boundary image: a two-sector root listing whose first
sector ends in a zero-length sentinel followed by junk, with a further
record in the second sector. -/
def imgC6 : ByteImage where
  size := 22 * sectorSize
  byteAt := fun i =>
    if i < 16 * sectorSize then 0
    else if i < 17 * sectorSize then pvdByte 22 rootDirRecordC6 (i - 16 * sectorSize)
    else if i < 18 * sectorSize then termByte (i - 17 * sectorSize)
    else if i < 19 * sectorSize then dirBytesC6a.getD (i - 18 * sectorSize) 0
    else if i < 20 * sectorSize then dirBytesC6b.getD (i - 19 * sectorSize) 0
    else 0

/-- The Primary Volume Descriptor of the sentinel-boundary image. -/
def pvdC6 : PrimaryVD :=
  { volumeIdentifier := marshalString "TESTISO" 32
    volumeSpaceSize := 22, volumeSetSize := 1, volumeSequenceNumber := 1
    logicalBlockSize := 2048, rootRecord := rootDirRecordC6, fileStructureVersion := 1 }

/-! ### Model of the `isodump` command-line collaborator (`cmd/isodump/main.go`) -/

/-- The facade fields of one `File` as the CLI consumes them (`Name`,
`IsDir`, `ModTime` in nanoseconds, `Size`, `HasMultiExtent`). -/
structure FNode where
  name : String
  isDir : Bool
  modTime : Int
  size : Nat
  me : Bool
  deriving DecidableEq, Repr

/-- A directory tree as the CLI observes it through the facade: each node
carries its facade fields, the outcome of `GetChildren` on it (`childErr`
set when that call fails), and its children. -/
inductive FTree where
  | mk (info : FNode) (childErr : Option Err) (children : List FTree) : FTree

/-- One line of `isodump` output, by its printed components: the rendered
path (before `%q` quoting), the rounded age, the size and the multi-extent
flag. -/
structure OutLine where
  path : String
  age : Int
  size : Nat
  me : Bool
  deriving DecidableEq, Repr

/-- Go `Duration.Round` on unbounded integers: round `d` to the nearest
multiple of `m`, halves away from zero; non-positive `m` returns `d`
unchanged (the Go overflow guards never fire without fixed width). -/
def durRound (d m : Int) : Int :=
  if m ≤ 0 then d
  else
    let r := Int.tmod d m
    if d < 0 then
      if -r + -r < m then d + -r else d - m + -r
    else
      if r + r < m then d - r else d + m - r

/-- Nanoseconds per second, Go's `time.Second`. -/
def nanosPerSecond : Int := 1000000000

/-- Split a character list on `'/'`, Go-style: n slashes produce n+1
(possibly empty) segments. -/
def splitOnSlash : List Char → List (List Char)
  | [] => [[]]
  | c :: rest =>
    match splitOnSlash rest with
    | [] => [[c]]
    | s :: ss => if c = '/' then [] :: s :: ss else (c :: s) :: ss

/-- Join segments with single slashes (inverse of `splitOnSlash` on
slash-free segments). -/
def joinSlash : List (List Char) → List Char
  | [] => []
  | [s] => s
  | s :: rest => s ++ '/' :: joinSlash rest

/-- The lexical segment stack of Go `path.Clean`: empty and `"."` segments
are dropped, `".."` pops a previous segment (or is kept at the start of a
relative path, or dropped at the root of a rooted one), other segments are
pushed. The stack is kept reversed and reversed once at the end. -/
def cleanSegs (rooted : Bool) : List (List Char) → List (List Char) → List (List Char)
  | stack, [] => stack.reverse
  | stack, s :: rest =>
    if s = [] ∨ s = ['.'] then cleanSegs rooted stack rest
    else if s = ['.', '.'] then
      match stack with
      | [] =>
        if rooted then cleanSegs rooted [] rest
        else cleanSegs rooted [['.', '.']] rest
      | t :: ts =>
        if t = ['.', '.'] then cleanSegs rooted (s :: t :: ts) rest
        else cleanSegs rooted ts rest
    else cleanSegs rooted (s :: stack) rest

/-- Go `path.Clean` by its documented lexical rules, on character lists:
collapse repeated slashes, eliminate `.` and `..` elements as specified,
empty result becomes `"."` (or `"/"` when rooted). -/
def goClean (p : List Char) : List Char :=
  if p = [] then ['.']
  else
    let rooted := p.head? = some '/'
    let stack := cleanSegs rooted [] (splitOnSlash p)
    let res := (if rooted then ['/'] else []) ++ joinSlash stack
    if res = [] then ['.'] else res

/-- Go `path.Join` as `main.go` uses it: skip leading empty elements, join
the rest with `"/"` and `Clean` the result; all-empty input gives `""`. -/
def goPathJoin (elems : List String) : String :=
  match (elems.map String.data).dropWhile (fun e => e.isEmpty) with
  | [] => ""
  | es => String.mk (goClean (joinSlash es))

/-- Character-wise replacement, Go `strings.ReplaceAll` with a one-byte
pattern. -/
def replaceByte (c : Char) (r : List Char) : List Char → List Char
  | [] => []
  | x :: xs => (if x = c then r else [x]) ++ replaceByte c r xs

/-- `printEntry` of `main.go`: join the ancestors' names and the file's
own name with `path.Join`, replace every `0x00` byte by `"."` and every
`0x01` byte by `".."`, and emit the path together with the age since
`ModTime` rounded to seconds, the size, and the multi-extent flag (the
`%q` quoting and `Printf` rendering are presentation and not modelled). -/
def printEntry (now : Int) (info : FNode) (parents : List String) : OutLine :=
  let p0 := goPathJoin (parents ++ [info.name])
  let p1 := replaceByte (Char.ofNat 0) ['.'] p0.data
  let p2 := replaceByte (Char.ofNat 1) ['.', '.'] p1
  { path := String.mk p2
    age := durRound (now - info.modTime) nanosPerSecond
    size := info.size
    me := info.me }

mutual

/-- `printEntries` of `main.go`: below the first traversal level the self
(`0x00`) and parent (`0x01`) entries are skipped; otherwise the entry is
printed, a non-directory ends the call, a directory whose `GetChildren`
failed aborts with an error naming the directory, and a directory's
children are visited in order with this node's name appended to the
ancestor path. Output is returned as the list of lines printed before the
call returned, plus the error (if any) that aborted it. -/
def printEntries (now : Int) : FTree → List String → List OutLine × Option (String × Err)
  | .mk info cerr cs, parents =>
    if 1 < parents.length ∧ (info.name = "\x00" ∨ info.name = "\x01") then ([], none)
    else
      let line := printEntry now info parents
      if ¬ info.isDir then ([line], none)
      else
        match cerr with
        | some e => ([line], some (info.name, e))
        | none =>
          match printList now cs (parents ++ [info.name]) with
          | (out, r) => (line :: out, r)

/-- The child loop of `printEntries`: children are visited left to right
and the loop stops at the first error. -/
def printList (now : Int) : List FTree → List String → List OutLine × Option (String × Err)
  | [], _ => ([], none)
  | t :: ts, parents =>
    match printEntries now t parents with
    | (out, some e) => (out, some e)
    | (out, none) =>
      match printList now ts parents with
      | (out2, r) => (out ++ out2, r)

end

/-- `main` of `main.go` after a successful open: traverse from the root
with no ancestors; a traversal error reaches `log.Fatal`, which exits with
status 1. -/
def mainExit (now : Int) (t : FTree) : Nat :=
  match (printEntries now t []).2 with
  | some _ => 1
  | none => 0


/-- A root directory whose `GetChildren` call fails, for exercising the
CLI's abort behavior. -/
def badTreeC3 : FTree :=
  .mk ⟨"\x00", true, 0, 0, false⟩ (some Err.ioFailure) []

/-! ## Theorems -/

theorem div2_eq (n : Nat) : div2 n = n / 2 := by
  induction n using Nat.strong_induction_on with
  | _ n ih =>
    match n with
    | 0 => rfl
    | 1 => rfl
    | m + 2 =>
      show div2 m + 1 = (m + 2) / 2
      rw [ih m (by omega)]
      omega

theorem oddNat_eq (n : Nat) : oddNat n = decide (n % 2 = 1) := by
  induction n using Nat.strong_induction_on with
  | _ n ih =>
    match n with
    | 0 => rfl
    | 1 => rfl
    | m + 2 =>
      show oddNat m = decide ((m + 2) % 2 = 1)
      rw [ih m (by omega)]
      congr 1
      simp [Nat.add_mod]

/-- The structural directory-bit test agrees with the flag mask of the
source convention: `FileFlags &&& 2 ≠ 0`. -/
theorem isDirRec_eq_land (de : DirectoryEntry) :
    de.isDirRec = decide (de.FileFlags &&& dirFlagDir ≠ 0) := by
  have h2 : dirFlagDir = 2 ^ 1 := rfl
  rw [DirectoryEntry.isDirRec, oddNat_eq, div2_eq, h2, Nat.and_two_pow]
  rcases h : de.FileFlags.testBit 1 with _ | _ <;>
    simp_all [Nat.testBit_to_div_mod, Nat.pow_succ]

/-- The structural multi-extent-bit test agrees with the flag mask of the
source convention: `FileFlags &&& 0x80 ≠ 0`. -/
theorem notFinal_eq_land (de : DirectoryEntry) :
    de.notFinal = decide (de.FileFlags &&& dirFlagMultiExtent ≠ 0) := by
  have h2 : dirFlagMultiExtent = 2 ^ 7 := rfl
  rw [DirectoryEntry.notFinal, oddNat_eq]
  simp only [div2_eq, Nat.div_div_eq_div_mul]
  rw [h2, Nat.and_two_pow]
  rcases h : de.FileFlags.testBit 7 with _ | _ <;>
    simp_all [Nat.testBit_to_div_mod]

/-- C1: three consecutive records with raw identifier `"BIGFILE.BIN;1"`,
extents `(19,100)`, `(20,100)`, `(21,50)`, of which exactly the first two
carry the "not final" flag, are merged by the Directory Tree Builder into
one `File` named `"BIGFILE.BIN"` of size 250 whose reader yields the
concatenation of the three extents' contents in record order; moreover the
full `OpenImage`/`GetChildren`/`readAll` pipeline on the
`TestMultiExtentFile` image with contents 100×`'A'`, 100×`'B'`, 50×`'C'`
returns exactly that file with exactly those 250 bytes. -/
theorem c1_multi_extent_merge :
    (∀ (r1 r2 r3 : DirectoryEntry) (img : ByteImage),
      r1.Identifier = strBytes "BIGFILE.BIN;1" →
      r2.Identifier = strBytes "BIGFILE.BIN;1" →
      r3.Identifier = strBytes "BIGFILE.BIN;1" →
      r1.ExtentLocation = 19 → r1.ExtentLength = 100 →
      r2.ExtentLocation = 20 → r2.ExtentLength = 100 →
      r3.ExtentLocation = 21 → r3.ExtentLength = 50 →
      r1.notFinal = true → r2.notFinal = true → r3.notFinal = false →
      ∃ f : File, mergeRecords [r1, r2, r3] = [f] ∧
        f.name = "BIGFILE.BIN" ∧ f.size = 250 ∧
        File.readAll img f =
          readExtent img ⟨19, 100⟩ ++ readExtent img ⟨20, 100⟩ ++ readExtent img ⟨21, 50⟩)
    ∧ OpenImage imgC1c = .ok ⟨imgC1c, pvdC1⟩
    ∧ (getChildren imgC1c (Image.rootDir ⟨imgC1c, pvdC1⟩)).map
        (fun cs => cs.map (fun f => (f.name, f.size, f.extents, File.readAll imgC1c f)))
      = .ok [("BIGFILE.BIN", 250, some [⟨19, 100⟩, ⟨20, 100⟩, ⟨21, 50⟩],
          List.replicate 100 65 ++ List.replicate 100 66 ++ List.replicate 50 67)] := by
  refine ⟨?_, by rfl, by rfl⟩
  intro r1 r2 r3 img h1 h2 h3 h4 h5 h6 h7 h8 h9 hf1 hf2 hf3
  refine ⟨.mk r1 (some [⟨19, 100⟩, ⟨20, 100⟩, ⟨21, 50⟩]) none, ?_, ?_, ?_, ?_⟩
  · simp [mergeRecords, mergeLoop, h1, h2, h3, hf1, hf2, sealAcc,
      DirectoryEntry.extent, h4, h5, h6, h7, h8, h9]
  · simp only [File.name, File.de, h1]
    decide
  · simp [File.size, File.extents]
  · simp [File.readAll, File.extentsList, File.extents]

/-- C1 witness: the general merge statement applied to the test's three
concrete records and image. -/
theorem c1_multi_extent_merge_witness :
    ∃ f : File, mergeRecords [me1, me2, me3] = [f] ∧
      f.name = "BIGFILE.BIN" ∧ f.size = 250 ∧
      File.readAll imgC1c f =
        readExtent imgC1c ⟨19, 100⟩ ++ readExtent imgC1c ⟨20, 100⟩
          ++ readExtent imgC1c ⟨21, 50⟩ :=
  c1_multi_extent_merge.1 me1 me2 me3 imgC1c rfl rfl rfl rfl rfl rfl rfl rfl rfl
    rfl rfl rfl

/-- C5: a directory listing holding, in physical order, the single-extent
file `"NORMAL.TXT;1"` (30 bytes at sector 19) and the two-part multi-extent
file `"MULTI.BIN;1"` (80 bytes at sector 22 plus 40 at sector 23) yields
exactly two children, in on-disk order, named `"NORMAL.TXT"` and
`"MULTI.BIN"` with sizes 30 and 120, extent-list lengths 1 and 2, each
readable to its exact bytes; moreover the full pipeline on the
`TestMultiExtentMixedWithRegularFiles` image returns exactly those two
children with exactly their contents. -/
theorem c5_mixed_listing :
    (∀ (rn rm1 rm2 : DirectoryEntry) (img : ByteImage),
      rn.Identifier = strBytes "NORMAL.TXT;1" →
      rm1.Identifier = strBytes "MULTI.BIN;1" →
      rm2.Identifier = strBytes "MULTI.BIN;1" →
      rn.ExtentLocation = 19 → rn.ExtentLength = 30 →
      rm1.ExtentLocation = 22 → rm1.ExtentLength = 80 →
      rm2.ExtentLocation = 23 → rm2.ExtentLength = 40 →
      rn.notFinal = false → rm1.notFinal = true → rm2.notFinal = false →
      ∃ f g : File, mergeRecords [rn, rm1, rm2] = [f, g] ∧
        f.name = "NORMAL.TXT" ∧ f.size = 30 ∧ f.extentsList.length = 1 ∧
        g.name = "MULTI.BIN" ∧ g.size = 120 ∧ g.extentsList.length = 2 ∧
        File.readAll img f = readExtent img ⟨19, 30⟩ ∧
        File.readAll img g = readExtent img ⟨22, 80⟩ ++ readExtent img ⟨23, 40⟩)
    ∧ OpenImage imgC5 = .ok ⟨imgC5, pvdC5⟩
    ∧ (getChildren imgC5 (Image.rootDir ⟨imgC5, pvdC5⟩)).map
        (fun cs => cs.map (fun f => (f.name, f.size, f.extentsList, File.readAll imgC5 f)))
      = .ok [("NORMAL.TXT", 30, [⟨19, 30⟩], normalData),
             ("MULTI.BIN", 120, [⟨22, 80⟩, ⟨23, 40⟩],
               List.replicate 80 88 ++ List.replicate 40 89)] := by
  refine ⟨?_, by rfl, by rfl⟩
  intro rn rm1 rm2 img h1 h2 h3 h4 h5 h6 h7 h8 h9 hf1 hf2 hf3
  refine ⟨.mk rn none none, .mk rm1 (some [⟨22, 80⟩, ⟨23, 40⟩]) none,
    ?_, ?_, ?_, ?_, ?_, ?_, ?_, ?_, ?_⟩
  · simp [mergeRecords, mergeLoop, h1, h2, h3, hf1, hf2, hf3, sealAcc,
      DirectoryEntry.extent, h4, h5, h6, h7, h8, h9]
  · simp only [File.name, File.de, h1]
    decide
  · simp [File.size, File.extents, File.de, h5]
  · simp [File.extentsList, File.extents]
  · simp only [File.name, File.de, h2]
    decide
  · simp [File.size, File.extents]
  · simp [File.extentsList, File.extents]
  · simp [File.readAll, File.extentsList, File.extents, File.de,
      DirectoryEntry.extent, h4, h5]
  · simp [File.readAll, File.extentsList, File.extents]

/-- C5 witness: the general mixed-listing statement applied to the test's
concrete records and image. -/
theorem c5_mixed_listing_witness :
    ∃ f g : File, mergeRecords [normalFile, multiPart1, multiPart2] = [f, g] ∧
      f.name = "NORMAL.TXT" ∧ f.size = 30 ∧ f.extentsList.length = 1 ∧
      g.name = "MULTI.BIN" ∧ g.size = 120 ∧ g.extentsList.length = 2 ∧
      File.readAll imgC5 f = readExtent imgC5 ⟨19, 30⟩ ∧
      File.readAll imgC5 g = readExtent imgC5 ⟨22, 80⟩ ++ readExtent imgC5 ⟨23, 40⟩ :=
  c5_mixed_listing.1 normalFile multiPart1 multiPart2 imgC5 rfl rfl rfl rfl rfl
    rfl rfl rfl rfl rfl rfl rfl

/-- C6: a zero declared record length terminates record scanning within
the current sector (no error, no records read past it) and scanning
resumes at the next sector boundary; concretely, a two-sector root listing
whose first sector ends in a sentinel followed by junk bytes yields
exactly the records of both sectors. -/
theorem c6_zero_length_sentinel :
    (∀ (img : ByteImage) (base window off fuel : Nat),
      off < window → img.byteAt (base + off) = 0 →
      scanSector img base window (fuel + 1) off = .ok [])
    ∧ (∀ (img : ByteImage) (base len n : Nat) (des : List DirectoryEntry),
      len ≠ 0 →
      scanSector img base (min sectorSize len) (min sectorSize len + 1) 0 = .ok des →
      scanDir img (n + 1) base len =
        (scanDir img n (base + sectorSize) (len - min sectorSize len)).map
          (fun more => des ++ more))
    ∧ (getChildren imgC6 (Image.rootDir ⟨imgC6, pvdC6⟩)).map
        (fun cs => cs.map (fun f => (f.name, f.size)))
      = .ok [("FILEA.TXT", 5), ("FILEB.TXT", 6)] := by
  refine ⟨?_, ?_, by rfl⟩
  · intro img base window off fuel hlt hz
    rw [scanSector]
    rw [if_neg (by omega : ¬ window ≤ off)]
    simp [hz]
  · intro img base len n des hlen hs
    rw [scanDir, if_neg hlen]
    dsimp only
    rw [hs]
    rcases hrest : scanDir img n (base + sectorSize) (len - min sectorSize len) with e | more
    · simp [hrest, Except.map]
    · simp [hrest, Except.map]


/-- C6 witness: the sentinel statements applied to the sentinel-boundary
image, whose first root sector has its sentinel at offset 112. -/
theorem c6_zero_length_sentinel_witness :
    scanSector imgC6 (18 * sectorSize) 2048 1 112 = .ok [] ∧
    scanDir imgC6 2 (18 * sectorSize) (2 * sectorSize) =
      (scanDir imgC6 1 (18 * sectorSize + sectorSize)
          (2 * sectorSize - min sectorSize (2 * sectorSize))).map
        (fun more => [dotEntry, dotDotEntry, fileARec] ++ more) :=
  ⟨c6_zero_length_sentinel.1 imgC6 (18 * sectorSize) 2048 112 0 (by decide) (by rfl),
   c6_zero_length_sentinel.2.1 imgC6 (18 * sectorSize) (2 * sectorSize) 1
     [dotEntry, dotDotEntry, fileARec] (by decide) (by rfl)⟩

/-- Sealing preserves the accumulator's first record. -/
theorem sealAcc_de (a : MergeAcc) : (sealAcc a).de = a.first := by
  unfold sealAcc
  split <;> rfl

/-- Every sealed file has a nonempty extent list whose lengths sum to its
size. -/
theorem sealAcc_inv (a : MergeAcc) :
    1 ≤ (sealAcc a).extentsList.length ∧
    (sealAcc a).size = ((sealAcc a).extentsList.map Extent.length).sum := by
  unfold sealAcc
  split
  · simp [File.extentsList, File.extents, File.size, File.de, DirectoryEntry.extent]
  · rename_i h
    constructor
    · simp [File.extentsList, File.extents]
      omega
    · simp [File.size, File.extents, File.extentsList]

/-- Every file the merge loop emits is a sealed accumulator. -/
theorem mergeLoop_mem_sealAcc :
    ∀ (des : List DirectoryEntry) (acc : Option MergeAcc) (f : File),
      f ∈ mergeLoop acc des → ∃ a : MergeAcc, f = sealAcc a := by
  intro des
  induction des with
  | nil =>
    intro acc f hf
    cases acc with
    | none => simp [mergeLoop] at hf
    | some a =>
      simp [mergeLoop] at hf
      exact ⟨a, hf⟩
  | cons de rest ih =>
    intro acc f hf
    cases acc with
    | none => exact ih _ f hf
    | some a =>
      rw [mergeLoop] at hf
      split at hf
      · exact ih _ f hf
      · rcases List.mem_cons.mp hf with h | h
        · exact ⟨a, h⟩
        · exact ih _ f h

/-- When no record carries both the directory and the continuation flag, a
directory file emitted by the merge loop has exactly one extent. -/
theorem mergeLoop_dir_single :
    ∀ (des : List DirectoryEntry) (acc : Option MergeAcc),
      (∀ de ∈ des, de.isDirRec = true → de.notFinal = false) →
      (∀ a : MergeAcc, acc = some a → a.first.isDirRec = true →
        a.exts.length = 1 ∧ a.prevNotFinal = false) →
      ∀ f ∈ mergeLoop acc des, f.isDir = true → f.extentsList.length = 1 := by
  intro des
  induction des with
  | nil =>
    intro acc hdes hacc f hf hdir
    cases acc with
    | none => simp [mergeLoop] at hf
    | some a =>
      simp [mergeLoop] at hf
      subst hf
      have hd : a.first.isDirRec = true := by
        rw [File.isDir, sealAcc_de] at hdir
        exact hdir
      obtain ⟨h1, _⟩ := hacc a rfl hd
      unfold sealAcc
      rw [if_pos (by omega)]
      simp [File.extentsList, File.extents]
  | cons de rest ih =>
    intro acc hdes hacc f hf hdir
    have hdes' : ∀ d ∈ rest, d.isDirRec = true → d.notFinal = false :=
      fun d hd => hdes d (List.mem_cons_of_mem _ hd)
    cases acc with
    | none =>
      rw [mergeLoop] at hf
      refine ih (some ⟨de, [de.extent], de.notFinal⟩) hdes' ?_ f hf hdir
      intro a ha hdira
      cases ha
      exact ⟨rfl, hdes de (List.mem_cons_self _ _) hdira⟩
    | some a =>
      rw [mergeLoop] at hf
      split at hf
      · rename_i hcond
        refine ih (some ⟨a.first, a.exts ++ [de.extent], de.notFinal⟩) hdes' ?_ f hf hdir
        intro a' ha' hdira'
        cases ha'
        obtain ⟨_, hp⟩ := hacc a rfl hdira'
        rw [hcond.2] at hp
        cases hp
      · rcases List.mem_cons.mp hf with h | h
        · subst h
          have hd : a.first.isDirRec = true := by
            rw [File.isDir, sealAcc_de] at hdir
            exact hdir
          obtain ⟨h1, _⟩ := hacc a rfl hd
          unfold sealAcc
          rw [if_pos (by omega)]
          simp [File.extentsList, File.extents]
        · refine ih (some ⟨de, [de.extent], de.notFinal⟩) hdes' ?_ f h hdir
          intro a' ha' hdira'
          cases ha'
          exact ⟨rfl, hdes de (List.mem_cons_self _ _) hdira'⟩

/-- C2: every `File` the Directory Tree Builder produces has at least one
extent and a size equal to the sum of its extents' lengths, and — on
listings where no record carries both the directory flag and the
multi-extent continuation flag, as the design guarantees for directories —
a directory `File` has exactly one extent. -/
theorem c2_builder_invariants :
    ∀ des : List DirectoryEntry,
      (∀ de ∈ des, de.isDirRec = true → de.notFinal = false) →
      ∀ f ∈ mergeRecords des,
        1 ≤ f.extentsList.length ∧
        f.size = (f.extentsList.map Extent.length).sum ∧
        (f.isDir = true → f.extentsList.length = 1) := by
  intro des hdes f hf
  obtain ⟨a, ha⟩ := mergeLoop_mem_sealAcc des none f hf
  obtain ⟨h1, h2⟩ := sealAcc_inv a
  subst ha
  exact ⟨h1, h2, mergeLoop_dir_single des none hdes (by intro a' h; cases h) _ hf⟩


/-- C2 witness: the invariants instantiated on the merged multi-extent
file of the `TestMultiExtentFile` listing. -/
theorem c2_builder_invariants_witness :
    1 ≤ bigfileC1.extentsList.length ∧
    bigfileC1.size = (bigfileC1.extentsList.map Extent.length).sum ∧
    (bigfileC1.isDir = true → bigfileC1.extentsList.length = 1) :=
  c2_builder_invariants [me1, me2, me3] (by decide) bigfileC1
    (by rw [show mergeRecords [me1, me2, me3] = [bigfileC1] from rfl]
        exact List.mem_singleton.mpr rfl)

/-- C8: `GetChildren` is idempotent: once a call on a directory `File`
succeeds and materializes the child list, calling it again on the
resulting `File` returns the structurally identical list (and the same
`File`) again. -/
theorem c8_getChildren_idempotent :
    ∀ (img : ByteImage) (f f' : File) (cs : List File),
      getChildrenCached img f = .ok (cs, f') →
      getChildrenCached img f' = .ok (cs, f') := by
  intro img f f' cs h
  unfold getChildrenCached at h ⊢
  cases hc : f.children with
  | some cs0 =>
    rw [hc] at h
    injection h with h'
    injection h' with h1 h2
    subst h1
    subst h2
    rw [hc]
  | none =>
    rw [hc] at h
    cases hg : getChildren img f with
    | error e => rw [hg] at h; cases h
    | ok cs1 =>
      rw [hg] at h
      injection h with h'
      injection h' with h1 h2
      subst h1
      subst h2
      simp [File.children]

/-- C8 witness: idempotence applied after the first successful call on the
`TestMultiExtentFile` root. -/
theorem c8_getChildren_idempotent_witness :
    getChildrenCached imgC1c (File.mk rootDirRecord none (some [bigfileC1]))
      = .ok ([bigfileC1], File.mk rootDirRecord none (some [bigfileC1])) :=
  c8_getChildren_idempotent imgC1c (Image.rootDir ⟨imgC1c, pvdC1⟩) _ _ (by rfl)


/-- Reading the bytes after a 33-byte prefix recovers the embedded list. -/
theorem range_map_getD_after_header (P idb rest : List Nat) (hP : P.length = 33) :
    (List.range idb.length).map (fun i => (P ++ (idb ++ rest)).getD (33 + i) 0) = idb := by
  apply List.ext_getElem (by simp)
  intro i h1 h2
  simp only [List.getElem_map, List.getElem_range]
  rw [List.getD_append_right _ _ _ _ (by omega)]
  rw [hP]
  have : 33 + i - 33 = i := by omega
  rw [this]
  rw [List.getD_append _ _ _ _ (by simpa using h2)]
  exact List.getD_eq_getElem _ _ (by simpa using h2)

/-- C7: encoding a directory record and decoding the bytes back recovers
the identifier, extent location and length, file flags and recording
timestamp, for every record whose fields fit their on-disk widths
(identifier bytes and flag/timestamp bytes below 256, 32-bit extent
fields, total record length at most 255). System-use padding is not
claimed. -/
theorem c7_codec_round_trip :
    ∀ de : DirectoryEntry,
      (∀ b ∈ de.Identifier, b < 256) →
      33 + de.Identifier.length + padFor de.Identifier.length
        + de.SystemUse.length ≤ 255 →
      de.ExtentLocation < 4294967296 → de.ExtentLength < 4294967296 →
      de.FileFlags < 256 →
      de.RecordingDateTime.years < 256 → de.RecordingDateTime.months < 256 →
      de.RecordingDateTime.days < 256 → de.RecordingDateTime.hours < 256 →
      de.RecordingDateTime.minutes < 256 → de.RecordingDateTime.seconds < 256 →
      de.RecordingDateTime.gmtOffset < 256 →
      ∃ de' : DirectoryEntry,
        unmarshalBinary de.marshalBinary = .ok de' ∧
        de'.Identifier = de.Identifier ∧
        de'.ExtentLocation = de.ExtentLocation ∧
        de'.ExtentLength = de.ExtentLength ∧
        de'.FileFlags = de.FileFlags ∧
        de'.RecordingDateTime = de.RecordingDateTime := by
  intro de hid hlen hloc hext hff h1 h2 h3 h4 h5 h6 h7
  have hb0 : de.marshalBinary.getD 0 0 =
      (33 + de.Identifier.length + padFor de.Identifier.length
        + de.SystemUse.length) % 256 := rfl
  have hrec : de.marshalBinary.getD 0 0 =
      33 + de.Identifier.length + padFor de.Identifier.length
        + de.SystemUse.length := by
    rw [hb0, Nat.mod_eq_of_lt (by omega)]
  have hlenbs : de.marshalBinary.length =
      33 + de.Identifier.length + padFor de.Identifier.length
        + de.SystemUse.length := by
    simp [DirectoryEntry.marshalBinary, le32, be32, le16, be16,
      RecordingTimestamp.marshal, writeInt32LSBMSB, writeInt16LSBMSB]
    omega
  have h32 : de.marshalBinary.getD 32 0 = de.Identifier.length := by
    rw [show de.marshalBinary.getD 32 0 = de.Identifier.length % 256 from rfl,
      Nat.mod_eq_of_lt (by omega)]
  rw [unmarshalBinary, decodeEntryAt]
  dsimp only
  rw [hrec, hlenbs, h32]
  rw [if_neg (by omega)]
  rw [if_neg (by omega)]
  refine ⟨_, rfl, ?_, ?_, ?_, ?_, ?_⟩
  · -- Identifier
    show (List.range de.Identifier.length).map
        (fun i => de.marshalBinary.getD (33 + i) 0) = de.Identifier
    have hsplit : de.marshalBinary =
        ([(33 + de.Identifier.length + padFor de.Identifier.length
            + de.SystemUse.length) % 256, de.ExtendedAttrLength % 256]
          ++ le32 de.ExtentLocation ++ be32 de.ExtentLocation
          ++ le32 de.ExtentLength ++ be32 de.ExtentLength
          ++ de.RecordingDateTime.marshal
          ++ [de.FileFlags % 256, de.FileUnitSize % 256, de.InterleaveGap % 256]
          ++ le16 de.VolumeSequenceNumber ++ be16 de.VolumeSequenceNumber
          ++ [de.Identifier.length % 256])
        ++ (de.Identifier.map (· % 256)
          ++ (List.replicate (padFor de.Identifier.length) 0
            ++ de.SystemUse.map (· % 256))) := by
      simp [DirectoryEntry.marshalBinary, writeInt32LSBMSB, writeInt16LSBMSB,
        List.append_assoc]
    have hidlen : (de.Identifier.map (· % 256)).length = de.Identifier.length := by
      simp
    rw [hsplit]
    rw [show de.Identifier.length = (de.Identifier.map (· % 256)).length from hidlen.symm]
    rw [range_map_getD_after_header _ _ _
      (by simp [le32, be32, le16, be16, RecordingTimestamp.marshal])]
    calc de.Identifier.map (· % 256) = de.Identifier.map id := by
            apply List.map_congr_left
            intro b hb
            exact Nat.mod_eq_of_lt (hid b hb)
      _ = de.Identifier := List.map_id _
  · -- ExtentLocation
    show de.marshalBinary.getD 2 0 + 256 * de.marshalBinary.getD 3 0
        + 65536 * de.marshalBinary.getD 4 0
        + 16777216 * de.marshalBinary.getD 5 0 = de.ExtentLocation
    rw [show de.marshalBinary.getD 2 0 = de.ExtentLocation % 256 from rfl,
      show de.marshalBinary.getD 3 0 = de.ExtentLocation / 256 % 256 from rfl,
      show de.marshalBinary.getD 4 0 = de.ExtentLocation / 65536 % 256 from rfl,
      show de.marshalBinary.getD 5 0 = de.ExtentLocation / 16777216 % 256 from rfl]
    omega
  · -- ExtentLength
    show de.marshalBinary.getD 10 0 + 256 * de.marshalBinary.getD 11 0
        + 65536 * de.marshalBinary.getD 12 0
        + 16777216 * de.marshalBinary.getD 13 0 = de.ExtentLength
    rw [show de.marshalBinary.getD 10 0 = de.ExtentLength % 256 from rfl,
      show de.marshalBinary.getD 11 0 = de.ExtentLength / 256 % 256 from rfl,
      show de.marshalBinary.getD 12 0 = de.ExtentLength / 65536 % 256 from rfl,
      show de.marshalBinary.getD 13 0 = de.ExtentLength / 16777216 % 256 from rfl]
    omega
  · -- FileFlags
    show de.marshalBinary.getD 25 0 = de.FileFlags
    rw [show de.marshalBinary.getD 25 0 = de.FileFlags % 256 from rfl]
    exact Nat.mod_eq_of_lt hff
  · -- RecordingDateTime
    show (⟨de.marshalBinary.getD 18 0, de.marshalBinary.getD 19 0,
        de.marshalBinary.getD 20 0, de.marshalBinary.getD 21 0,
        de.marshalBinary.getD 22 0, de.marshalBinary.getD 23 0,
        de.marshalBinary.getD 24 0⟩ : RecordingTimestamp) = de.RecordingDateTime
    rw [show de.marshalBinary.getD 18 0 = de.RecordingDateTime.years % 256 from rfl,
      show de.marshalBinary.getD 19 0 = de.RecordingDateTime.months % 256 from rfl,
      show de.marshalBinary.getD 20 0 = de.RecordingDateTime.days % 256 from rfl,
      show de.marshalBinary.getD 21 0 = de.RecordingDateTime.hours % 256 from rfl,
      show de.marshalBinary.getD 22 0 = de.RecordingDateTime.minutes % 256 from rfl,
      show de.marshalBinary.getD 23 0 = de.RecordingDateTime.seconds % 256 from rfl,
      show de.marshalBinary.getD 24 0 = de.RecordingDateTime.gmtOffset % 256 from rfl]
    rcases de with ⟨_, _, _, ⟨y, mo, d, h, mi, s, g⟩, _, _, _, _, _, _⟩
    simp_all [Nat.mod_eq_of_lt]


/-- C7 witness: the round-trip applied to the first concrete
`BIGFILE.BIN;1` chain record. -/
theorem c7_codec_round_trip_witness :
    ∃ de' : DirectoryEntry,
      unmarshalBinary me1.marshalBinary = .ok de' ∧
      de'.Identifier = me1.Identifier ∧
      de'.ExtentLocation = me1.ExtentLocation ∧
      de'.ExtentLength = me1.ExtentLength ∧
      de'.FileFlags = me1.FileFlags ∧
      de'.RecordingDateTime = me1.RecordingDateTime :=
  c7_codec_round_trip me1 (by decide) (by decide) (by decide) (by decide)
    (by decide) (by decide) (by decide) (by decide) (by decide) (by decide)
    (by decide) (by decide)

/-- The descriptor scan fails with `invalidMagic` at the first sector whose
standard identifier is not `"CD001"`, all earlier sectors being well
tagged, non-terminator, and decodable where Primary. -/
theorem scanVD_invalid_magic (img : ByteImage) :
    ∀ (fuel sector s : Nat) (found : Option PrimaryVD),
      sector ≤ s → s - sector < fuel → (s + 1) * sectorSize ≤ img.size →
      (∀ k, sector ≤ k → k < s →
        descMagic img k = magicBytes ∧
        descType img k ≠ volumeTypeTerminator ∧
        (descType img k = volumeTypePrimary → ∃ p, decodePrimary img k = .ok p)) →
      descMagic img s ≠ magicBytes →
      scanVD img fuel sector found = .error .invalidMagic := by
  intro fuel
  induction fuel with
  | zero => intro sector s found h1 h2 _ _ _; omega
  | succ fuel ih =>
    intro sector s found h1 h2 h3 h4 hbad
    rw [scanVD.eq_def]
    dsimp only
    rw [if_neg (by simp only [sectorSize] at h3 ⊢; omega)]
    by_cases hss : sector = s
    · subst hss
      rw [if_pos hbad]
    · have hlt : sector < s := by omega
      obtain ⟨hm, ht, hp⟩ := h4 sector le_rfl hlt
      rw [if_neg (by simpa using hm)]
      rw [if_neg ht]
      have h4' : ∀ k, sector + 1 ≤ k → k < s →
          descMagic img k = magicBytes ∧
          descType img k ≠ volumeTypeTerminator ∧
          (descType img k = volumeTypePrimary → ∃ p, decodePrimary img k = .ok p) :=
        fun k hk1 hk2 => h4 k (by omega) hk2
      by_cases hty : descType img sector = volumeTypePrimary
      · rw [if_pos hty]
        cases found with
        | some p => exact ih (sector + 1) s (some p) (by omega) (by omega) h3 h4' hbad
        | none =>
          obtain ⟨p, hp'⟩ := hp hty
          rw [hp']
          exact ih (sector + 1) s (some p) (by omega) (by omega) h3 h4' hbad
      · rw [if_neg hty]
        exact ih (sector + 1) s found (by omega) (by omega) h3 h4' hbad

/-- The descriptor scan fails with `noPrimaryDescriptor` when it reaches a
terminator having seen no Primary descriptor. -/
theorem scanVD_no_primary (img : ByteImage) :
    ∀ (fuel sector t : Nat),
      sector ≤ t → t - sector < fuel → (t + 1) * sectorSize ≤ img.size →
      (∀ k, sector ≤ k → k < t →
        descMagic img k = magicBytes ∧
        descType img k ≠ volumeTypeTerminator ∧
        descType img k ≠ volumeTypePrimary) →
      descMagic img t = magicBytes → descType img t = volumeTypeTerminator →
      scanVD img fuel sector none = .error .noPrimaryDescriptor := by
  intro fuel
  induction fuel with
  | zero => intro sector t h1 h2 _ _ _ _; omega
  | succ fuel ih =>
    intro sector t h1 h2 h3 h4 hmt htt
    rw [scanVD.eq_def]
    dsimp only
    rw [if_neg (by simp only [sectorSize] at h3 ⊢; omega)]
    by_cases hss : sector = t
    · subst hss
      rw [if_neg (by simpa using hmt), if_pos htt]
    · have hlt : sector < t := by omega
      obtain ⟨hm, hterm, hprim⟩ := h4 sector le_rfl hlt
      rw [if_neg (by simpa using hm), if_neg hterm, if_neg hprim]
      exact ih (sector + 1) t (by omega) (by omega) h3
        (fun k hk1 hk2 => h4 k (by omega) hk2) hmt htt

/-- Once a Primary descriptor is held, the scan returns it upon reaching
the terminator. -/
theorem scanVD_found_terminator (img : ByteImage) (P : PrimaryVD) :
    ∀ (fuel sector t : Nat),
      sector ≤ t → t - sector < fuel → (t + 1) * sectorSize ≤ img.size →
      (∀ k, sector ≤ k → k < t →
        descMagic img k = magicBytes ∧ descType img k ≠ volumeTypeTerminator) →
      descMagic img t = magicBytes → descType img t = volumeTypeTerminator →
      scanVD img fuel sector (some P) = .ok P := by
  intro fuel
  induction fuel with
  | zero => intro sector t h1 h2 _ _ _ _; omega
  | succ fuel ih =>
    intro sector t h1 h2 h3 h4 hmt htt
    rw [scanVD.eq_def]
    dsimp only
    rw [if_neg (by simp only [sectorSize] at h3 ⊢; omega)]
    by_cases hss : sector = t
    · subst hss
      rw [if_neg (by simpa using hmt), if_pos htt]
    · have hlt : sector < t := by omega
      obtain ⟨hm, hterm⟩ := h4 sector le_rfl hlt
      rw [if_neg (by simpa using hm), if_neg hterm]
      by_cases hty : descType img sector = volumeTypePrimary
      · rw [if_pos hty]
        exact ih (sector + 1) t (by omega) (by omega) h3
          (fun k hk1 hk2 => h4 k (by omega) hk2) hmt htt
      · rw [if_neg hty]
        exact ih (sector + 1) t (by omega) (by omega) h3
          (fun k hk1 hk2 => h4 k (by omega) hk2) hmt htt

/-- The scan returns the first Primary descriptor encountered before the
terminator. -/
theorem scanVD_first_primary (img : ByteImage) (P : PrimaryVD) :
    ∀ (fuel sector p t : Nat),
      sector ≤ p → p < t → t - sector < fuel → (t + 1) * sectorSize ≤ img.size →
      (∀ k, sector ≤ k → k < p →
        descMagic img k = magicBytes ∧
        descType img k ≠ volumeTypeTerminator ∧
        descType img k ≠ volumeTypePrimary) →
      descMagic img p = magicBytes → descType img p = volumeTypePrimary →
      decodePrimary img p = .ok P →
      (∀ k, p < k → k < t →
        descMagic img k = magicBytes ∧ descType img k ≠ volumeTypeTerminator) →
      descMagic img t = magicBytes → descType img t = volumeTypeTerminator →
      scanVD img fuel sector none = .ok P := by
  intro fuel
  induction fuel with
  | zero => intro sector p t h1 hpt h2 _ _ _ _ _ _ _ _; omega
  | succ fuel ih =>
    intro sector p t h1 hpt h2 h3 h4 hmp htp hdp h5 hmt htt
    rw [scanVD.eq_def]
    dsimp only
    rw [if_neg (by simp only [sectorSize] at h3 ⊢; omega)]
    by_cases hss : sector = p
    · subst hss
      have hterm : descType img sector ≠ volumeTypeTerminator := by
        rw [htp]
        simp [volumeTypePrimary, volumeTypeTerminator]
      rw [if_neg (by simpa using hmp), if_neg hterm, if_pos htp, hdp]
      exact scanVD_found_terminator img P fuel (sector + 1) t (by omega) (by omega)
        h3 (fun k hk1 hk2 => h5 k (by omega) hk2) hmt htt
    · have hlt : sector < p := by omega
      obtain ⟨hm, hterm, hprim⟩ := h4 sector le_rfl hlt
      rw [if_neg (by simpa using hm), if_neg hterm, if_neg hprim]
      exact ih (sector + 1) p t (by omega) hpt (by omega) h3
        (fun k hk1 hk2 => h4 k (by omega) hk2) hmp htp hdp h5 hmt htt

/-- C9: the Volume Descriptor Reader, scanning from sector 16, fails with
`invalidMagic` at the first descriptor whose 5-byte standard identifier is
not `"CD001"`; fails with `noPrimaryDescriptor` when the type-255
terminator is reached with no type-1 Primary seen; and otherwise
`OpenImage` returns an `Image` built from the first Primary descriptor. -/
theorem c9_volume_descriptor_reader :
    (∀ (img : ByteImage) (s : Nat), 16 ≤ s → (s + 1) * sectorSize ≤ img.size →
      (∀ k, 16 ≤ k → k < s →
        descMagic img k = magicBytes ∧
        descType img k ≠ volumeTypeTerminator ∧
        (descType img k = volumeTypePrimary → ∃ p, decodePrimary img k = .ok p)) →
      descMagic img s ≠ magicBytes →
      OpenImage img = .error .invalidMagic)
  ∧ (∀ (img : ByteImage) (t : Nat), 16 ≤ t → (t + 1) * sectorSize ≤ img.size →
      (∀ k, 16 ≤ k → k < t →
        descMagic img k = magicBytes ∧
        descType img k ≠ volumeTypeTerminator ∧
        descType img k ≠ volumeTypePrimary) →
      descMagic img t = magicBytes → descType img t = volumeTypeTerminator →
      OpenImage img = .error .noPrimaryDescriptor)
  ∧ (∀ (img : ByteImage) (p t : Nat) (P : PrimaryVD), 16 ≤ p → p < t →
      (t + 1) * sectorSize ≤ img.size →
      (∀ k, 16 ≤ k → k < p →
        descMagic img k = magicBytes ∧
        descType img k ≠ volumeTypeTerminator ∧
        descType img k ≠ volumeTypePrimary) →
      descMagic img p = magicBytes → descType img p = volumeTypePrimary →
      decodePrimary img p = .ok P →
      (∀ k, p < k → k < t →
        descMagic img k = magicBytes ∧ descType img k ≠ volumeTypeTerminator) →
      descMagic img t = magicBytes → descType img t = volumeTypeTerminator →
      OpenImage img = .ok ⟨img, P⟩) := by
  refine ⟨?_, ?_, ?_⟩
  · intro img s h16 hsz hgood hbad
    rw [OpenImage]
    rw [scanVD_invalid_magic img img.size 16 s none h16
      (by simp only [sectorSize] at hsz; omega) hsz hgood hbad]
  · intro img t h16 hsz hgood hmt htt
    rw [OpenImage]
    rw [scanVD_no_primary img img.size 16 t h16
      (by simp only [sectorSize] at hsz; omega) hsz hgood hmt htt]
  · intro img p t P h16 hpt hsz hpre hmp htp hdp hmid hmt htt
    rw [OpenImage]
    rw [scanVD_first_primary img P img.size 16 p t h16 hpt
      (by simp only [sectorSize] at hsz; omega) hsz hpre hmp htp hdp hmid hmt htt]

/-- C9 witness: the Primary-descriptor branch applied to the concrete
`TestMultiExtentFile` image (Primary at sector 16, terminator at 17). -/
theorem c9_volume_descriptor_reader_witness :
    OpenImage imgC1c = .ok ⟨imgC1c, pvdC1⟩ :=
  c9_volume_descriptor_reader.2.2 imgC1c 16 17 pvdC1 (by omega) (by omega)
    (by decide) (by intro k hk1 hk2; omega) (by rfl) (by rfl) (by rfl)
    (by intro k hk1 hk2; omega) (by rfl) (by rfl)


/-- C4: below the first traversal level (more than one ancestor on the
path), `printEntries` returns immediately on a `File` named by the self
(`0x00`) or parent (`0x01`) marker — printing nothing, recursing into
nothing and reporting no error — while at the first level (at most one
ancestor) every entry, these included, is printed as the first output
line of its call. -/
theorem c4_pseudo_entry_filter :
    ∀ (now : Int) (info : FNode) (cerr : Option Err) (cs : List FTree)
      (parents : List String),
      (1 < parents.length → (info.name = "\x00" ∨ info.name = "\x01") →
        printEntries now (.mk info cerr cs) parents = ([], none))
      ∧ (parents.length ≤ 1 →
        (printEntries now (.mk info cerr cs) parents).1.head? =
          some (printEntry now info parents)) := by
  intro now info cerr cs parents
  constructor
  · intro h1 h2
    rw [printEntries, if_pos ⟨h1, h2⟩]
  · intro h1
    rw [printEntries, if_neg (fun hc => absurd hc.1 (by omega))]
    dsimp only
    by_cases hd : info.isDir = true
    · rw [if_neg (by simp [hd])]
      cases cerr with
      | some e => simp
      | none =>
        rcases hpl : printList now cs (parents ++ [info.name]) with ⟨out, r⟩
        simp [hpl]
    · rw [if_pos (by simp_all)]
      simp

/-- C4 witness: a self-named directory is suppressed under two ancestors
and printed under one. -/
theorem c4_pseudo_entry_filter_witness :
    printEntries 0 (.mk ⟨"\x00", true, 0, 0, false⟩ none []) ["\x00", "SUB"] = ([], none)
    ∧ (printEntries 0 (.mk ⟨"\x00", true, 0, 0, false⟩ none []) ["\x00"]).1.head? =
        some (printEntry 0 ⟨"\x00", true, 0, 0, false⟩ ["\x00"]) :=
  ⟨(c4_pseudo_entry_filter 0 ⟨"\x00", true, 0, 0, false⟩ none [] ["\x00", "SUB"]).1
      (by decide) (Or.inl rfl),
   (c4_pseudo_entry_filter 0 ⟨"\x00", true, 0, 0, false⟩ none [] ["\x00"]).2
      (by decide)⟩

/-- C3 counterexample: a root whose `GetChildren` fails still prints the
root's own line before aborting, so a failing traversal does produce
partial output, contrary to the claim's "no partial output is produced". -/
theorem c3_counterexample :
    (printEntries 0 badTreeC3 []).2 = some ("\x00", Err.ioFailure) ∧
    (printEntries 0 badTreeC3 []).1 ≠ [] := by
  rw [badTreeC3, printEntries, if_neg (fun hc => absurd hc.1 (by norm_num))]
  dsimp only
  norm_num

/-- C3 amended: a failure during traversal aborts the whole traversal with
a non-zero exit and a descriptive error naming the directory whose
children fetch failed; the traversal stops at the first failure, so no
entry after the failure point is printed — but lines printed before the
failure remain (output is streamed, not retracted). -/
theorem c3_abort_behavior :
    (∀ (now : Int) (t : FTree) (e : String × Err),
      (printEntries now t []).2 = some e → mainExit now t = 1)
    ∧ (∀ (now : Int) (parents : List String) (ts1 : List FTree) (t : FTree)
        (ts2 : List FTree) (e : String × Err),
        (∀ u ∈ ts1, (printEntries now u parents).2 = none) →
        (printEntries now t parents).2 = some e →
        printList now (ts1 ++ t :: ts2) parents =
          ((ts1.map (fun u => (printEntries now u parents).1)).flatten
            ++ (printEntries now t parents).1, some e))
    ∧ (∀ (now : Int) (info : FNode) (e : Err) (cs : List FTree)
        (parents : List String), info.isDir = true →
        ¬(1 < parents.length ∧ (info.name = "\x00" ∨ info.name = "\x01")) →
        (printEntries now (.mk info (some e) cs) parents).2 = some (info.name, e)) := by
  refine ⟨?_, ?_, ?_⟩
  · intro now t e h
    rw [mainExit, h]
  · intro now parents ts1
    induction ts1 with
    | nil =>
      intro t ts2 e _ ht
      rcases hpe : printEntries now t parents with ⟨out, r⟩
      rw [hpe] at ht
      simp only [List.nil_append, List.map_nil, List.flatten_nil]
      rw [printList, hpe]
      subst ht
      simp
    | cons u ts1 ih =>
      intro t ts2 e hok ht
      have hu : (printEntries now u parents).2 = none :=
        hok u (List.mem_cons_self _ _)
      rcases hpe : printEntries now u parents with ⟨out, r⟩
      rw [hpe] at hu
      subst hu
      rw [List.cons_append, printList, hpe]
      rw [ih t ts2 e (fun v hv => hok v (List.mem_cons_of_mem _ hv)) ht]
      simp [hpe]
  · intro now info e cs parents hdir hnf
    rw [printEntries, if_neg hnf]
    dsimp only
    rw [if_neg (by simp [hdir])]

/-- C3 witness: the failing root yields exit status 1. -/
theorem c3_abort_behavior_witness :
    mainExit 0 badTreeC3 = 1 :=
  c3_abort_behavior.1 0 badTreeC3 ("\x00", Err.ioFailure)
    (by rw [badTreeC3, printEntries, if_neg (fun hc => absurd hc.1 (by norm_num))]
        dsimp only
        norm_num)

/-- Splitting always yields at least one segment. -/
theorem splitOnSlash_ne_nil (l : List Char) : splitOnSlash l ≠ [] := by
  induction l with
  | nil => simp [splitOnSlash]
  | cons c rest ih =>
    rw [splitOnSlash]
    rcases h : splitOnSlash rest with _ | ⟨s, ss⟩
    · simp
    · dsimp only
      split <;> simp

/-- A slash-free list splits into itself. -/
theorem splitOnSlash_no_slash (s : List Char) (h : '/' ∉ s) :
    splitOnSlash s = [s] := by
  induction s with
  | nil => rfl
  | cons c rest ih =>
    have hc : c ≠ '/' := fun hh => h (hh ▸ List.mem_cons_self _ _)
    have hr : '/' ∉ rest := fun hh => h (List.mem_cons_of_mem _ hh)
    rw [splitOnSlash, ih hr]
    simp [hc]

/-- Splitting peels a slash-free segment before a slash. -/
theorem splitOnSlash_append (s rest : List Char) (h : '/' ∉ s) :
    splitOnSlash (s ++ '/' :: rest) = s :: splitOnSlash rest := by
  induction s with
  | nil =>
    rw [List.nil_append, splitOnSlash]
    rcases hr : splitOnSlash rest with _ | ⟨t, ts⟩
    · exact absurd hr (splitOnSlash_ne_nil rest)
    · simp
  | cons c s' ih =>
    have hc : c ≠ '/' := fun hh => h (hh ▸ List.mem_cons_self _ _)
    have hs : '/' ∉ s' := fun hh => h (List.mem_cons_of_mem _ hh)
    rw [List.cons_append, splitOnSlash, ih hs]
    simp [hc]

/-- Splitting is the inverse of joining slash-free segments. -/
theorem splitOnSlash_join (ss : List (List Char)) (hne : ss ≠ [])
    (h : ∀ s ∈ ss, '/' ∉ s) : splitOnSlash (joinSlash ss) = ss := by
  induction ss with
  | nil => exact absurd rfl hne
  | cons s rest ih =>
    cases rest with
    | nil =>
      rw [show joinSlash [s] = s from rfl]
      exact splitOnSlash_no_slash s (h s (List.mem_cons_self _ _))
    | cons s2 rest2 =>
      rw [show joinSlash (s :: s2 :: rest2) = s ++ '/' :: joinSlash (s2 :: rest2) from rfl]
      rw [splitOnSlash_append _ _ (h s (List.mem_cons_self _ _))]
      rw [ih (by simp) (fun t ht => h t (List.mem_cons_of_mem _ ht))]

/-- On segments that are nonempty and neither `"."` nor `".."`, the Clean
stack keeps every segment in order. -/
theorem cleanSegs_plain (rooted : Bool) (segs : List (List Char)) :
    ∀ stack : List (List Char),
      (∀ s ∈ segs, s ≠ [] ∧ s ≠ ['.'] ∧ s ≠ ['.', '.']) →
      cleanSegs rooted stack segs = stack.reverse ++ segs := by
  induction segs with
  | nil => intro stack _; simp [cleanSegs]
  | cons s rest ih =>
    intro stack h
    obtain ⟨h1, h2, h3⟩ := h s (List.mem_cons_self _ _)
    rw [cleanSegs.eq_def]
    dsimp only
    rw [if_neg (by simp [h1, h2]), if_neg h3]
    rw [ih (s :: stack) (fun t ht => h t (List.mem_cons_of_mem _ ht))]
    simp

/-- A join starting with a nonempty segment is nonempty. -/
theorem joinSlash_ne_nil (s : List Char) (rest : List (List Char)) (h : s ≠ []) :
    joinSlash (s :: rest) ≠ [] := by
  cases rest with
  | nil => simpa [joinSlash]
  | cons s2 rest2 =>
    rw [show joinSlash (s :: s2 :: rest2) = s ++ '/' :: joinSlash (s2 :: rest2) from rfl]
    simp

/-- A join starting with a nonempty slash-free segment does not start with
a slash (it is not a rooted path). -/
theorem joinSlash_head (s : List Char) (rest : List (List Char))
    (h1 : s ≠ []) (h2 : '/' ∉ s) :
    ¬ (joinSlash (s :: rest)).head? = some '/' := by
  rcases s with _ | ⟨c, s'⟩
  · exact absurd rfl h1
  · have hc : c ≠ '/' := fun hh => h2 (hh ▸ List.mem_cons_self _ _)
    cases rest with
    | nil =>
      rw [show joinSlash [c :: s'] = c :: s' from rfl]
      simpa using hc
    | cons s2 rest2 =>
      rw [show joinSlash ((c :: s') :: s2 :: rest2)
          = (c :: s') ++ '/' :: joinSlash (s2 :: rest2) from rfl]
      simpa using hc

/-- Go `path.Clean` is the identity on joins of plain segments (nonempty,
slash-free, neither `"."` nor `".."`). -/
theorem goClean_plain (ss : List (List Char)) (hne : ss ≠ [])
    (h : ∀ s ∈ ss, s ≠ [] ∧ '/' ∉ s ∧ s ≠ ['.'] ∧ s ≠ ['.', '.']) :
    goClean (joinSlash ss) = joinSlash ss := by
  rcases ss with _ | ⟨s, rest⟩
  · exact absurd rfl hne
  · obtain ⟨hs1, hs2, _, _⟩ := h s (List.mem_cons_self _ _)
    have hp : joinSlash (s :: rest) ≠ [] := joinSlash_ne_nil s rest hs1
    rw [goClean, if_neg hp]
    dsimp only
    rw [splitOnSlash_join _ (by simp) (fun t ht => (h t ht).2.1)]
    rw [cleanSegs_plain _ _ [] (fun t ht => ⟨(h t ht).1, (h t ht).2.2.1, (h t ht).2.2.2⟩)]
    rw [List.reverse_nil, List.nil_append]
    rw [if_neg (joinSlash_head s rest hs1 hs2), List.nil_append, if_neg hp]

/-- Go `path.Join` on plain segments is the plain slash-join of their
characters. -/
theorem goPathJoin_plain (elems : List String) (hne : elems ≠ [])
    (h : ∀ s ∈ elems, s.data ≠ [] ∧ '/' ∉ s.data ∧
      s.data ≠ ['.'] ∧ s.data ≠ ['.', '.']) :
    goPathJoin elems = String.mk (joinSlash (elems.map String.data)) := by
  rcases elems with _ | ⟨e, rest⟩
  · exact absurd rfl hne
  · have he : e.data ≠ [] := (h e (List.mem_cons_self _ _)).1
    rw [goPathJoin]
    rw [List.map_cons, List.dropWhile_cons]
    rw [if_neg (by simpa [List.isEmpty_iff] using he)]
    dsimp only
    rw [goClean_plain _ (by simp) ?hall]
    case hall =>
      intro t ht
      rcases List.mem_cons.mp ht with h' | h'
      · exact h' ▸ h e (List.mem_cons_self _ _)
      · obtain ⟨u, hu, rfl⟩ := List.mem_map.mp h'
        exact h u (List.mem_cons_of_mem _ hu)

/-- C10: for every printed `File` whose path components are plain segments
(nonempty, slash-free, not `"."` or `".."` — all ISO9660 identifiers,
including the raw self/parent markers, qualify), `printEntry` renders the
path as the slash-join of the ancestor names and the file's own name with
every `0x00` character replaced by `"."` and every `0x01` replaced by
`".."`, and emits exactly that path, the age since `ModTime` rounded to
seconds, the size, and the multi-extent flag. -/
theorem c10_print_entry_rendering :
    ∀ (now : Int) (info : FNode) (parents : List String),
      (∀ s ∈ parents ++ [info.name], s.data ≠ [] ∧ '/' ∉ s.data ∧
        s.data ≠ ['.'] ∧ s.data ≠ ['.', '.']) →
      printEntry now info parents =
        { path := String.mk (replaceByte (Char.ofNat 1) ['.', '.']
            (replaceByte (Char.ofNat 0) ['.']
              (joinSlash ((parents ++ [info.name]).map String.data))))
          age := durRound (now - info.modTime) nanosPerSecond
          size := info.size
          me := info.me } := by
  intro now info parents h
  simp only [printEntry]
  rw [goPathJoin_plain _ (by simp) h]

/-- C10 witness: the rendering applied to a file under the root's self
marker. -/
theorem c10_print_entry_rendering_witness :
    printEntry 2500000000 ⟨"FILE.TXT", false, 1000000000, 7, false⟩ ["\x00"] =
      { path := String.mk (replaceByte (Char.ofNat 1) ['.', '.']
          (replaceByte (Char.ofNat 0) ['.']
            (joinSlash ((["\x00", "FILE.TXT"] : List String).map String.data))))
        age := durRound (2500000000 - 1000000000) nanosPerSecond
        size := 7
        me := false } :=
  c10_print_entry_rendering 2500000000 ⟨"FILE.TXT", false, 1000000000, 7, false⟩
    ["\x00"] (by decide)

end Iso9660
